import Mathlib

/-!
# Verification of the Dockhand vault secrets-sync pipeline

Shallow embedding of the secrets-manifest parser (`secrets-file.ts`), the
Vault client's selective read (`vault.ts`, `VaultClient.getSecrets`), the
per-stack sync orchestrator (`vault-sync.ts`, `syncStackSecrets`) and the
fleet orchestrator (`syncAllStackSecrets`).

The parser operates on dynamically typed values produced by `yaml.load`, so
it is modelled over an inductive `Yaml` type together with JavaScript runtime
semantics (truthiness, `typeof`, property access on `null` throwing a
`TypeError`, string methods only existing on strings).  The orchestrator's
external effects (file read, database reads/writes, HTTP calls to Vault) are
modelled as oracle fields of a `SyncEnv` record, each returning `Except` to
represent a thrown exception.
-/

set_option autoImplicit false

/-- A value produced by `yaml.load`.  JavaScript `undefined` is represented
by `Option.none` at use sites (an absent object property), never as a
`Yaml` constructor, mirroring the JS distinction between `null` and
`undefined`. -/
inductive Yaml where
  | ynull
  | ybool (b : Bool)
  | ynum (n : Int)
  | ystr (s : String)
  | ylist (items : List Yaml)
  | yobj (fields : List (String × Yaml))
deriving Repr

namespace Yaml

/-- First-match association lookup on an object's fields, i.e. JS property
lookup on a plain object (yaml.load deduplicates keys, so first match is
exact). -/
def lookupField : List (String × Yaml) → String → Option Yaml
  | [], _ => none
  | (k, v) :: rest, f => if k = f then some v else lookupField rest f

/-- JavaScript truthiness of a defined value. -/
def truthy : Yaml → Bool
  | .ynull => false
  | .ybool b => b
  | .ynum n => n != 0
  | .ystr s => s ≠ ""
  | .ylist _ => true
  | .yobj _ => true

/-- JavaScript truthiness of a possibly-`undefined` value. -/
def truthyO : Option Yaml → Bool
  | none => false
  | some v => truthy v

/-- JavaScript `typeof` of a possibly-`undefined` value (`typeof null`
is `"object"`, as is `typeof` of any array or plain object). -/
def jsTypeof : Option Yaml → String
  | none => "undefined"
  | some .ynull => "object"
  | some (.ybool _) => "boolean"
  | some (.ynum _) => "number"
  | some (.ystr _) => "string"
  | some (.ylist _) => "object"
  | some (.yobj _) => "object"

end Yaml

open Yaml

/-- Errors thrown inside `parseSecretsFile` / `parseAndNormalizeSecretsFile`
(`secrets-file.ts`).  The constructors record which `throw` site produced
the error; `invalidSecretDef` carries the offending item, mirroring
`throw new Error("Invalid secret definition: " + JSON.stringify(item))`,
while `typeError` models a runtime `TypeError` raised by the JS engine
(property read on `null`, or calling a string method on a non-string). -/
inductive ParseErr where
  | invalidRoot
  | secretsNotArray
  | invalidSecretDef (item : Yaml)
  | typeError (msg : String)
deriving Repr

/-- JS property access `v.f`: throws a `TypeError` when `v` is `null`,
returns `undefined` on primitives and arrays, looks the field up on plain
objects. -/
def jsGetProp (v : Yaml) (f : String) : Except ParseErr (Option Yaml) :=
  match v with
  | .ynull => .error (.typeError ("Cannot read properties of null (reading " ++ f ++ ")"))
  | .yobj fields => .ok (lookupField fields f)
  | _ => .ok none

/-- JS `s.toUpperCase()` on the ASCII range (the manifest names in play),
written over the character list so it computes by structural recursion. -/
def jsStrToUpper (s : String) : String :=
  ⟨s.data.map Char.toUpper⟩

/-- JS `s.toLowerCase()` on the ASCII range, over the character list. -/
def jsStrToLower (s : String) : String :=
  ⟨s.data.map Char.toLower⟩

/-- JS `x.toLowerCase()`: only strings have the method; on any other value
the call throws a `TypeError`. -/
def jsToLowerCase : Yaml → Except ParseErr Yaml
  | .ystr s => .ok (.ystr (jsStrToLower s))
  | _ => .error (.typeError "toLowerCase is not a function")

/-- JS `s.split(sep)` for a one-character separator, over the character
list: `"" → [""]`, separators at the ends produce empty parts. -/
def splitCharList (sep : Char) : List Char → List (List Char)
  | [] => [[]]
  | c :: rest =>
    let r := splitCharList sep rest
    if c = sep then [] :: r
    else
      match r with
      | [] => [[c]]
      | g :: gs => (c :: g) :: gs

/-- JS `path.split("/")`. -/
def jsSplitSlash (s : String) : List String :=
  (splitCharList '/' s.data).map (fun cs => ⟨cs⟩)

/-- JS `s.includes(pat)` for strings: substring containment. -/
def jsIncludes (s pat : String) : Bool :=
  decide (pat.toList <:+: s.toList)

/-- JS `a ?? b` (nullish coalescing) on a possibly-`undefined` value. -/
def jsNullish (a : Option Yaml) (b : Yaml) : Yaml :=
  match a with
  | none => b
  | some .ynull => b
  | some v => v

/-- JS `a || b` on a possibly-`undefined` left operand. -/
def jsOrY (a : Option Yaml) (b : Yaml) : Yaml :=
  match a with
  | some v => if truthy v then v else b
  | none => b

-- =============================================================================
-- secrets-file.ts : parseSecretsFile
-- =============================================================================

/-- `SecretDefinition` as actually produced at runtime by `parseSecretsFile`
(fields hold raw yaml values; `key` is always assigned by the parser,
`path` and `triggerRedeploy` may be `undefined`). -/
structure SecretDefY where
  name : Yaml
  key : Yaml
  path : Option Yaml
  triggerRedeploy : Option Yaml
deriving Repr

/-- The `auth` sub-record built by `parseSecretsFile` for the vault
section. -/
structure AuthY where
  method : Option Yaml
  role_id : Option Yaml
  secret_id : Option Yaml
  token : Option Yaml
  kube_role : Option Yaml
deriving Repr

/-- The `vault` record built by `parseSecretsFile`.  `triggerRedeploy` is
always defined there: the parser applies `?? false`. -/
structure VaultSectionY where
  address : Option Yaml
  vnamespace : Option Yaml
  path : Option Yaml
  triggerRedeploy : Yaml
  auth : Option AuthY
deriving Repr

/-- Result of `parseSecretsFile` (`SecretsFileConfig`). -/
structure SecretsFileConfigY where
  vault : Option VaultSectionY
  secrets : List SecretDefY
deriving Repr

/-- One element of the `parsed.secrets.map(...)` callback in
`parseSecretsFile` (secrets-file.ts lines 185-206), including the JS
runtime behaviour: a bare string expands to upper/lower case name/key; a
value of `typeof === "object"` (which includes `null`!) has its `name`
property read, which throws a `TypeError` for `null`; an object with a
truthy `name` is accepted, its `key` defaulting to
`item.name.toLowerCase()` when `item.key` is falsy; every other shape
throws `Invalid secret definition: ...` naming the item. -/
def parseSecretItem (item : Yaml) : Except ParseErr SecretDefY :=
  match item with
  | .ystr s => .ok ⟨.ystr (jsStrToUpper s), .ystr (jsStrToLower s), none, none⟩
  | _ =>
    if jsTypeof (some item) = "object" then
      match jsGetProp item "name" with
      | .error e => .error e
      | .ok nameF =>
        match nameF with
        | some n =>
          if truthy n then
            match jsGetProp item "key" with
            | .error e => .error e
            | .ok keyF =>
              if truthyO keyF then
                match keyF with
                | some k =>
                  match jsGetProp item "path" with
                  | .error e => .error e
                  | .ok pathF =>
                    match jsGetProp item "triggerRedeploy" with
                    | .error e => .error e
                    | .ok trF => .ok ⟨n, k, pathF, trF⟩
                | none => .error (.invalidSecretDef item)
              else
                match jsToLowerCase n with
                | .error e => .error e
                | .ok k =>
                  match jsGetProp item "path" with
                  | .error e => .error e
                  | .ok pathF =>
                    match jsGetProp item "triggerRedeploy" with
                    | .error e => .error e
                    | .ok trF => .ok ⟨n, k, pathF, trF⟩
          else .error (.invalidSecretDef item)
        | none => .error (.invalidSecretDef item)
    else .error (.invalidSecretDef item)

/-- The vault-section extraction of `parseSecretsFile` (lines 166-178):
`parsed.vault ? {...} : undefined`, with `triggerRedeploy: parsed.vault.triggerRedeploy ?? false`
and the nested `auth` record built only when `parsed.vault.auth` is
truthy.  Reachable only with a truthy `vaultF`, so the property reads
cannot throw; the impossible null case is routed through `jsGetProp`
anyway for fidelity. -/
def parseVaultSection (vaultF : Option Yaml) : Except ParseErr (Option VaultSectionY) :=
  if truthyO vaultF then
    match vaultF with
    | none => .ok none
    | some vv =>
      match jsGetProp vv "address" with
      | .error e => .error e
      | .ok address =>
        match jsGetProp vv "namespace" with
        | .error e => .error e
        | .ok vnamespace =>
          match jsGetProp vv "path" with
          | .error e => .error e
          | .ok path =>
            match jsGetProp vv "triggerRedeploy" with
            | .error e => .error e
            | .ok trF =>
              match jsGetProp vv "auth" with
              | .error e => .error e
              | .ok authF =>
                if truthyO authF then
                  match authF with
                  | none => .ok none
                  | some av =>
                    match jsGetProp av "method" with
                    | .error e => .error e
                    | .ok method =>
                      match jsGetProp av "role_id" with
                      | .error e => .error e
                      | .ok roleId =>
                        match jsGetProp av "secret_id" with
                        | .error e => .error e
                        | .ok secretId =>
                          match jsGetProp av "token" with
                          | .error e => .error e
                          | .ok tokenF =>
                            match jsGetProp av "kube_role" with
                            | .error e => .error e
                            | .ok kubeRole =>
                              .ok (some ⟨address, vnamespace, path, jsNullish trF (.ybool false),
                                    some ⟨method, roleId, secretId, tokenF, kubeRole⟩⟩)
                else
                  .ok (some ⟨address, vnamespace, path, jsNullish trF (.ybool false), none⟩)
  else .ok none

/-- The `parsed.secrets.map(...)` call (line 185): JS `Array.map` visits
items left to right and the first thrown error propagates. -/
def parseSecretItems : List Yaml → Except ParseErr (List SecretDefY)
  | [] => .ok []
  | it :: rest =>
    match parseSecretItem it with
    | .error e => .error e
    | .ok sd =>
      match parseSecretItems rest with
      | .error e => .error e
      | .ok sds => .ok (sd :: sds)

/-- `parseSecretsFile(content)` (secrets-file.ts lines 158-209), applied to
the value `yaml.load` produced from the content (`yaml.load` of an empty
document yields `undefined`, modelled by `none`).  Root validation:
`!parsed || typeof parsed !== "object"` throws
`Invalid secrets file: expected YAML object`; a missing or non-array
`secrets` property throws `"secrets" must be an array`; each item is
normalized by `parseSecretItem`. -/
def parseSecretsFile (root : Option Yaml) : Except ParseErr SecretsFileConfigY :=
  if ¬ (truthyO root = true) ∨ jsTypeof root ≠ "object" then .error .invalidRoot
  else
    match root with
    | none => .error .invalidRoot
    | some v =>
      match jsGetProp v "vault" with
      | .error e => .error e
      | .ok vaultF =>
        match parseVaultSection vaultF with
        | .error e => .error e
        | .ok vault =>
          match jsGetProp v "secrets" with
          | .error e => .error e
          | .ok secretsF =>
            if ¬ (truthyO secretsF = true) then .error .secretsNotArray
            else
              match secretsF with
              | some (.ylist items) =>
                match parseSecretItems items with
                | .error e => .error e
                | .ok secrets => .ok ⟨vault, secrets⟩
              | _ => .error .secretsNotArray

-- =============================================================================
-- secrets-file.ts : parseAndNormalizeSecretsFile / readSecretsFile
-- =============================================================================

/-- A `SecretMapping` as built by `parseAndNormalizeSecretsFile`: fields
carry the raw runtime values (the TS interface declares strings/booleans
but the parser never checks this). -/
structure SecretMappingY where
  envVar : Yaml
  vaultKey : Yaml
  triggerRedeploy : Yaml
deriving Repr

/-- The `authOverride` record of `ParsedSecretsConfig`. -/
structure AuthOverrideY where
  method : Yaml
  roleId : Option Yaml
  secretId : Option Yaml
  token : Option Yaml
  kubeRole : Option Yaml
deriving Repr

/-- `ParsedSecretsConfig` as built by `parseAndNormalizeSecretsFile`.
`secretsByPath` is a JS `Map` in insertion order; every key is a string
(a non-string path throws before insertion), so it is modelled as an
association list with string keys. -/
structure ParsedSecretsConfigY where
  vaultPath : Yaml
  vaultAddress : Option Yaml
  vaultNamespace : Option Yaml
  authOverride : Option AuthOverrideY
  secretsByPath : List (String × List SecretMappingY)
  triggerRedeployDefault : Yaml
deriving Repr

/-- The KV v2 path rewrite of `parseAndNormalizeSecretsFile` (secrets-file.ts
lines 240-246): a path already containing `/data/` is kept; otherwise, when
it splits on `/` into at least two parts, `data` is injected after the first
part; a single-part path is left unchanged. -/
def normalizeSecretPath (path : String) : String :=
  if jsIncludes path "/data/" then path
  else
    match jsSplitSlash path with
    | p0 :: p1 :: rest => p0 ++ "/data/" ++ String.intercalate "/" (p1 :: rest)
    | _ => path

/-- Used only in statements: a path is a single segment when splitting it on
`/` yields at most one part, i.e. the separator does not occur in it. -/
def singleSegment (path : String) : Bool :=
  (jsSplitSlash path).length ≤ 1

/-- The raw per-secret path value before normalization (lines 230-238):
`secret.path` when truthy, else the base path (the source guards with
`if (secret.path)`, i.e. truthiness). -/
def effectivePathValue (basePath : Yaml) (secret : SecretDefY) : Yaml :=
  match secret.path with
  | some p => if truthy p then p else basePath
  | none => basePath

/-- The per-secret effective-path computation of the normalize loop
(lines 230-246): the raw value must be a string for `path.includes` to
exist, otherwise the JS engine throws a `TypeError`; then the KV v2
rewrite is applied. -/
def resolveSecretPath (basePath : Yaml) (secret : SecretDefY) : Except ParseErr String :=
  match effectivePathValue basePath secret with
  | .ystr s => .ok (normalizeSecretPath s)
  | _ => .error (.typeError "path.includes is not a function")

/-- The two-level `triggerRedeploy` resolution (line 254):
`secret.triggerRedeploy !== undefined ? secret.triggerRedeploy : triggerRedeployDefault`. -/
def resolveTriggerRedeploy (secretFlag : Option Yaml) (defaultFlag : Yaml) : Yaml :=
  match secretFlag with
  | some v => v
  | none => defaultFlag

/-- The mapping record pushed for one secret (lines 258-262):
`envVar: secret.name`, `vaultKey: secret.key || secret.name.toLowerCase()`
(the fallback call throws on a non-string name), and the resolved
`triggerRedeploy`. -/
def computeSecretMapping (triggerRedeployDefault : Yaml) (secret : SecretDefY) :
    Except ParseErr SecretMappingY :=
  if truthy secret.key then
    .ok ⟨secret.name, secret.key, resolveTriggerRedeploy secret.triggerRedeploy triggerRedeployDefault⟩
  else
    match jsToLowerCase secret.name with
    | .error e => .error e
    | .ok k => .ok ⟨secret.name, k, resolveTriggerRedeploy secret.triggerRedeploy triggerRedeployDefault⟩

/-- Appending a mapping to its path group, mirroring
`if (!secretsByPath.has(path)) secretsByPath.set(path, []); secretsByPath.get(path)!.push(mapping)`:
the first insertion for a path appends a new group at the end, later
insertions push onto the existing group in place. -/
def pushToGroup : List (String × List SecretMappingY) → String → SecretMappingY →
    List (String × List SecretMappingY)
  | [], path, m => [(path, [m])]
  | (p, ms) :: rest, path, m =>
    if p = path then (p, ms ++ [m]) :: rest
    else (p, ms) :: pushToGroup rest path m

/-- One iteration of the `for (const secret of config.secrets)` loop of
`parseAndNormalizeSecretsFile` (lines 229-263). -/
def addSecretMapping (basePath triggerRedeployDefault : Yaml)
    (acc : List (String × List SecretMappingY)) (secret : SecretDefY) :
    Except ParseErr (List (String × List SecretMappingY)) :=
  match resolveSecretPath basePath secret with
  | .error e => .error e
  | .ok path =>
    match computeSecretMapping triggerRedeployDefault secret with
    | .error e => .error e
    | .ok m => .ok (pushToGroup acc path m)

/-- `parseAndNormalizeSecretsFile(content, defaultPath = "secret/data")`
(secrets-file.ts lines 214-285) applied to the `yaml.load` value:
`basePath = config.vault?.path || defaultPath`,
`triggerRedeployDefault = config.vault?.triggerRedeploy ?? false`, the
grouping loop, and the `authOverride` built only when
`config.vault?.auth?.method` is truthy. -/
def parseAndNormalizeSecretsFile (root : Option Yaml)
    (defaultPath : String := "secret/data") : Except ParseErr ParsedSecretsConfigY :=
  match parseSecretsFile root with
  | .error e => .error e
  | .ok config =>
    let basePath : Yaml := jsOrY (config.vault.bind (·.path)) (.ystr defaultPath)
    let triggerRedeployDefault : Yaml :=
      jsNullish (config.vault.map (·.triggerRedeploy)) (.ybool false)
    match config.secrets.foldlM (addSecretMapping basePath triggerRedeployDefault) [] with
    | .error e => .error e
    | .ok secretsByPath =>
      let authOverride : Option AuthOverrideY :=
        match config.vault with
        | some vv =>
          match vv.auth with
          | some av =>
            match av.method with
            | some mth =>
              if truthy mth then
                some ⟨mth, av.role_id, av.secret_id, av.token, av.kube_role⟩
              else none
            | none => none
          | none => none
        | none => none
      .ok ⟨basePath, config.vault.bind (·.address), config.vault.bind (·.vnamespace),
           authOverride, secretsByPath, triggerRedeployDefault⟩

/-- `readSecretsFile(stackDir)` (secrets-file.ts lines 290-303) with the
filesystem abstracted: `fileContent` is `none` when none of the four
supported file names exists (the function returns `null`), otherwise the
`yaml.load` value of the first existing file's text.  The parser is always
invoked as `parseAndNormalizeSecretsFile(content)`, i.e. with the
hard-coded default base path `"secret/data"`; no caller-supplied or
global-config path is threaded in. -/
def readSecretsFile (fileContent : Option (Option Yaml)) :
    Except ParseErr (Option ParsedSecretsConfigY) :=
  match fileContent with
  | none => .ok none
  | some root =>
    match parseAndNormalizeSecretsFile root with
    | .error e => .error e
    | .ok cfg => .ok (some cfg)

-- =============================================================================
-- Generic JS record / Map helpers used by the orchestrator
-- =============================================================================

/-- First-match association lookup: JS object property read
(`record[key]`) and `Map.get`. -/
def assocGet {β : Type} : List (String × β) → String → Option β
  | [], _ => none
  | (k, v) :: rest, key => if k = key then some v else assocGet rest key

/-- JS `Map.set`: replaces the value of an existing key in place, appends a
new key at the end. -/
def mapSet {β : Type} : List (String × β) → String → β → List (String × β)
  | [], key, v => [(key, v)]
  | (k0, v0) :: rest, key, v =>
    if k0 = key then (key, v) :: rest else (k0, v0) :: mapSet rest key v

/-- JS `new Map(entries)`: successive `set` of each pair. -/
def mapFromPairs {β : Type} (pairs : List (String × β)) : List (String × β) :=
  pairs.foldl (fun m p => mapSet m p.1 p.2) []

/-- JS `a || b` for an optional string against a string (empty string is
falsy). -/
def jsOrStr (a : Option String) (b : String) : String :=
  match a with
  | some s => if s ≠ "" then s else b
  | none => b

/-- Truthiness of an optional string. -/
def strTruthy (a : Option String) : Bool :=
  match a with
  | some s => s ≠ ""
  | none => false

/-- JS `a || b || undefined` for optional strings. -/
def jsOrStrU (a b : Option String) : Option String :=
  if strTruthy a then a else if strTruthy b then b else none

-- =============================================================================
-- Typed interface level: the orchestrator's view of a parsed manifest
-- =============================================================================

/-- `SecretMapping` (secrets-file.ts TS interface) as consumed by
`syncStackSecrets`: everything well-typed. -/
structure SecretMapping where
  envVar : String
  vaultKey : String
  triggerRedeploy : Bool
deriving Repr, DecidableEq

/-- `ParsedSecretsConfig.authOverride` at the TS interface level. -/
structure AuthOverride where
  method : String
  roleId : Option String := none
  secretId : Option String := none
  token : Option String := none
  kubeRole : Option String := none
deriving Repr, DecidableEq

/-- `ParsedSecretsConfig` at the TS interface level, as consumed by
`syncStackSecrets`. -/
structure ParsedSecretsConfig where
  vaultPath : String
  vaultAddress : Option String := none
  vaultNamespace : Option String := none
  authOverride : Option AuthOverride := none
  secretsByPath : List (String × List SecretMapping)
  triggerRedeployDefault : Bool := false
deriving Repr, DecidableEq

/-- The persisted global vault configuration row as returned by
`getVaultConfig()` (nullable DB columns are options). -/
structure StoredVaultConfig where
  address : String
  vnamespace : Option String := none
  defaultPath : Option String := none
  authMethod : String
  token : Option String := none
  roleId : Option String := none
  secretId : Option String := none
  kubeRole : Option String := none
  skipTlsVerify : Option Bool := none
  enabled : Bool
deriving Repr, DecidableEq

/-- `VaultConfig` (vault.ts interface) handed to `createVaultClient`. -/
structure VaultConfig where
  address : String
  vnamespace : Option String
  defaultPath : Option String
  authMethod : String
  token : Option String
  roleId : Option String
  secretId : Option String
  kubeRole : Option String
  skipTlsVerify : Bool
  enabled : Bool
deriving Repr, DecidableEq

/-- Step 3 of `syncStackSecrets` (vault-sync.ts lines 113-125): the
effective config merging manifest overrides over the global config.  Note
`defaultPath` is copied from the global config only, and is consumed by no
later step. -/
def effectiveVaultConfig (secretsConfig : ParsedSecretsConfig)
    (globalConfig : StoredVaultConfig) : VaultConfig where
  address := jsOrStr secretsConfig.vaultAddress globalConfig.address
  vnamespace := jsOrStrU secretsConfig.vaultNamespace globalConfig.vnamespace
  defaultPath := if strTruthy globalConfig.defaultPath then globalConfig.defaultPath else none
  authMethod := jsOrStr (secretsConfig.authOverride.map (·.method)) globalConfig.authMethod
  token := jsOrStrU (secretsConfig.authOverride.bind (·.token)) globalConfig.token
  roleId := jsOrStrU (secretsConfig.authOverride.bind (·.roleId)) globalConfig.roleId
  secretId := jsOrStrU (secretsConfig.authOverride.bind (·.secretId)) globalConfig.secretId
  kubeRole := jsOrStrU (secretsConfig.authOverride.bind (·.kubeRole)) globalConfig.kubeRole
  skipTlsVerify := globalConfig.skipTlsVerify.getD false
  enabled := true

-- =============================================================================
-- vault.ts : VaultClient.getSecrets
-- =============================================================================

/-- `VaultSecret` (vault.ts). -/
structure VaultSecret where
  key : String
  value : String
deriving Repr, DecidableEq

/-- `VaultClient.getSecrets(path, keys)` (vault.ts lines 671-684): reads the
whole secret at `path` (the client's `readSecret`, here an oracle for the
HTTP exchange, returning the secret's key/value record or a thrown error),
then keeps the requested keys in request order; a requested key absent from
the secret is logged and omitted, never an error. -/
def getSecrets (readSecret : String → Except String (List (String × String)))
    (path : String) (keys : List String) : Except String (List VaultSecret) :=
  match readSecret path with
  | .error e => .error e
  | .ok allSecrets =>
    .ok (keys.filterMap fun k => (assocGet allSecrets k).map fun v => ⟨k, v⟩)

-- =============================================================================
-- vault-sync.ts : syncStackSecrets
-- =============================================================================

/-- `SyncResult` (vault-sync.ts). -/
structure SyncResult where
  success : Bool
  synced : Nat
  errors : List String
  skipped : Bool
  secretsChanged : Bool
  triggerRedeploySecrets : List String
deriving Repr, DecidableEq

/-- An element of the `allSecrets` array (vault-sync.ts line 161):
`{key: envVar, value, isSecret: true}`. -/
structure EnvSecret where
  key : String
  value : String
  isSecret : Bool
deriving Repr, DecidableEq

/-- The oracle environment of one `syncStackSecrets` run.  Each field is one
external effect; `Except.error` models a thrown exception.  `getVaultConfig`
resolves to `none` when no configuration row exists, and to `Except.error`
when the database read itself throws — the `await getVaultConfig()` at
vault-sync.ts line 102 is the one effect call of the function that sits
outside every try/catch, so that error propagates to the caller.  The
environment-id resolution step (lines 52-71) is not modelled: it only
selects which database rows the `getSecretEnvVarsAsRecord` /
`upsertStackEnvVars` effects address and never influences the returned
`SyncResult` (its own failure is swallowed with a console warning). -/
structure SyncEnv where
  readSecretsFile : Except String (Option ParsedSecretsConfig)
  getVaultConfig : Except String (Option StoredVaultConfig)
  createVaultClient : VaultConfig →
    Except String (String → Except String (List (String × String)))
  getSecretEnvVarsAsRecord : Except String (List (String × String))
  upsertStackEnvVars : List EnvSecret → Except String Unit

/-- Accumulator of the fetch loop (vault-sync.ts lines 155-186):
`allSecrets`, `errors` and the `triggerRedeployMap`. -/
structure FetchAcc where
  allSecrets : List EnvSecret
  errors : List String
  trMap : List (String × Bool)
deriving Repr, DecidableEq

/-- One iteration of `for (const [path, mappings] of secretsConfig.secretsByPath)`
(lines 160-186): fetch all keys of the group in one `getSecrets` call; on a
thrown fetch error push one `Failed to read secrets from ...` entry; on
success map each fetched value to its env var (recording its
`triggerRedeploy` flag) and push a `not found` error for each missing
key. -/
def processPathGroup (readSecret : String → Except String (List (String × String)))
    (acc : FetchAcc) (group : String × List SecretMapping) : FetchAcc :=
  match getSecrets readSecret group.1 (group.2.map (·.vaultKey)) with
  | .error e =>
    { acc with errors :=
        acc.errors ++ ["Failed to read secrets from \"" ++ group.1 ++ "\": " ++ e] }
  | .ok secrets =>
    let secretsByKey := mapFromPairs (secrets.map fun s => (s.key, s.value))
    group.2.foldl (fun acc m =>
      match assocGet secretsByKey m.vaultKey with
      | some v =>
        { acc with
          allSecrets := acc.allSecrets ++ [⟨m.envVar, v, true⟩],
          trMap := mapSet acc.trMap m.envVar m.triggerRedeploy }
      | none =>
        { acc with errors :=
            acc.errors ++ ["Secret \"" ++ m.vaultKey ++ "\" not found at path \"" ++
              group.1 ++ "\""] }) acc

/-- The whole fetch loop (step 5). -/
def fetchPhase (readSecret : String → Except String (List (String × String)))
    (secretsByPath : List (String × List SecretMapping)) : FetchAcc :=
  secretsByPath.foldl (processPathGroup readSecret) ⟨[], [], []⟩

/-- The `isChanged` predicate of the diff loop (lines 193-194): an env var
with no prior stored value, or whose prior value differs from the fetched
one by string comparison, is changed. -/
def changedFlag (existing : List (String × String)) (secret : EnvSecret) : Bool :=
  match assocGet existing secret.key with
  | none => true
  | some oldValue => oldValue ≠ secret.value

/-- One iteration of the diff loop (lines 192-208), continued: a changed env
var is collected; if its recorded `triggerRedeploy` flag is truthy it also
enters `triggerRedeploySecrets`. -/
def diffStep (existing : List (String × String)) (trMap : List (String × Bool))
    (acc : List String × List String) (secret : EnvSecret) : List String × List String :=
  if changedFlag existing secret then
    (acc.1 ++ [secret.key],
     if (assocGet trMap secret.key).getD false then acc.2 ++ [secret.key] else acc.2)
  else acc

/-- The diff loop (step 5a): returns `(changedSecrets, triggerRedeploySecrets)`. -/
def diffPhase (existing : List (String × String)) (allSecrets : List EnvSecret)
    (trMap : List (String × Bool)) : List String × List String :=
  allSecrets.foldl (diffStep existing trMap) ([], [])

/-- The observable outcome of one run: the returned `SyncResult`, plus the
batch handed to a successful `upsertStackEnvVars` call (`none` when the
write was not attempted or threw) — a ghost observation used to state
persistence claims. -/
structure SyncOutcome where
  result : SyncResult
  persisted : Option (List EnvSecret)
deriving Repr, DecidableEq

/-- `syncStackSecrets(stackName, stackDir, environmentId?)` (vault-sync.ts
lines 46-249) over the oracle environment.  Every caught failure is an
early `.ok` return of a `SyncResult`; the one uncaught effect is the
global-config load at line 102 (outside every try/catch), whose thrown
error escapes as `.error`. -/
def syncStackSecrets (env : SyncEnv) : Except String SyncOutcome :=
  match env.readSecretsFile with
  | .error e =>
    .ok ⟨⟨false, 0, ["Failed to parse secrets file: " ++ e], false, false, []⟩, none⟩
  | .ok none =>
    .ok ⟨⟨true, 0, [], true, false, []⟩, none⟩
  | .ok (some secretsConfig) =>
    match env.getVaultConfig with
    | .error e => .error e
    | .ok none =>
      .ok ⟨⟨false, 0, ["Vault is not configured or disabled. Configure Vault in Settings first."],
        false, false, []⟩, none⟩
    | .ok (some globalConfig) =>
      if globalConfig.enabled = false then
        .ok ⟨⟨false, 0, ["Vault is not configured or disabled. Configure Vault in Settings first."],
          false, false, []⟩, none⟩
      else
        match env.createVaultClient (effectiveVaultConfig secretsConfig globalConfig) with
        | .error e =>
          .ok ⟨⟨false, 0, ["Failed to connect to Vault: " ++ e], false, false, []⟩, none⟩
        | .ok readSecret =>
          let existingSecrets : List (String × String) :=
            match env.getSecretEnvVarsAsRecord with
            | .ok r => r
            | .error _ => []
          let acc := fetchPhase readSecret secretsConfig.secretsByPath
          let diffed := diffPhase existingSecrets acc.allSecrets acc.trMap
          let secretsChanged := decide (0 < diffed.1.length)
          if acc.allSecrets.isEmpty then
            .ok ⟨⟨acc.errors.isEmpty, acc.allSecrets.length, acc.errors, false,
              secretsChanged, diffed.2⟩, none⟩
          else
            match env.upsertStackEnvVars acc.allSecrets with
            | .error e =>
              .ok ⟨⟨false, 0, ["Failed to save secrets to database: " ++ e], false,
                secretsChanged, diffed.2⟩, none⟩
            | .ok _ =>
              .ok ⟨⟨acc.errors.isEmpty, acc.allSecrets.length, acc.errors, false,
                secretsChanged, diffed.2⟩, some acc.allSecrets⟩

-- =============================================================================
-- vault-sync.ts : syncAllStackSecrets
-- =============================================================================

/-- One Git stack as iterated by `syncAllStackSecrets` (lines 256-299), with
its two effect outcomes as oracles: `dirResult` is `getStackDir` (it may
throw, or resolve to no directory), `syncOutcome` is the delegated
`syncStackSecrets` call as observed by the caller (an `Except.error` models
a thrown exception). -/
structure FleetStack where
  stackName : String
  dirResult : Except String (Option String)
  syncOutcome : Except String SyncResult
deriving Repr

/-- The `SyncResult` recorded for one stack by the loop body of
`syncAllStackSecrets`: a thrown `getStackDir` or sync exception is caught
and converted (lines 290-298); an unresolvable directory gets the dedicated
`Stack directory not found` result (lines 272-280); otherwise the
delegate's result is recorded. -/
def fleetStackResult (stack : FleetStack) : SyncResult :=
  match stack.dirResult with
  | .error e => ⟨false, 0, [e], false, false, []⟩
  | .ok none => ⟨false, 0, ["Stack directory not found"], false, false, []⟩
  | .ok (some _) =>
    match stack.syncOutcome with
    | .error e => ⟨false, 0, [e], false, false, []⟩
    | .ok r => r

/-- `syncAllStackSecrets()` (vault-sync.ts lines 256-299) over the stack
list `getGitStacks()` returned: a `Map` keyed by stack name, filled
sequentially; no iteration aborts. -/
def syncAllStackSecrets (stackList : List FleetStack) : List (String × SyncResult) :=
  stackList.foldl (fun results stack =>
    mapSet results stack.stackName (fleetStackResult stack)) []


-- =============================================================================
-- Helper lemmas: path normalization and the grouping loop
-- =============================================================================

/-- All mappings stored in a path-grouped map, in order. -/
def mappingsOf (groups : List (String × List SecretMappingY)) : List SecretMappingY :=
  (groups.map Prod.snd).flatten

theorem mappingsOf_cons (p : String) (ms : List SecretMappingY)
    (tl : List (String × List SecretMappingY)) :
    mappingsOf ((p, ms) :: tl) = ms ++ mappingsOf tl := by
  simp [mappingsOf]

theorem Except_bind_eq_ok {ε α β : Type} {x : Except ε α} {f : α → Except ε β} {b : β}
    (h : x >>= f = .ok b) : ∃ a, x = .ok a ∧ f a = .ok b := by
  cases x with
  | error e => simp [Bind.bind, Except.bind] at h
  | ok a => exact ⟨a, rfl, by simpa [Bind.bind, Except.bind] using h⟩

theorem jsIncludes_middle (a b : String) : jsIncludes (a ++ "/data/" ++ b) "/data/" = true := by
  simp only [jsIncludes, decide_eq_true_eq]
  refine ⟨a.toList, b.toList, ?_⟩
  simp [String.toList]

/-- Every output of the KV v2 rewrite either contains `/data/` or is a
single `/`-free segment (the rewrite skips single-segment paths). -/
theorem normalizeSecretPath_spec (s : String) :
    jsIncludes (normalizeSecretPath s) "/data/" = true ∨
      singleSegment (normalizeSecretPath s) = true := by
  unfold normalizeSecretPath
  by_cases h : jsIncludes s "/data/"
  · simp [h]
  · simp only [Bool.not_eq_true] at h
    rw [h]
    simp only [Bool.false_eq_true, if_false]
    rcases hsp : jsSplitSlash s with _ | ⟨p0, _ | ⟨p1, rest⟩⟩
    · right; simp [singleSegment, hsp]
    · right; simp [singleSegment, hsp]
    · left; exact jsIncludes_middle p0 (String.intercalate "/" (p1 :: rest))

theorem resolveSecretPath_shape (b : Yaml) (sd : SecretDefY) (p : String)
    (h : resolveSecretPath b sd = .ok p) : ∃ raw, p = normalizeSecretPath raw := by
  unfold resolveSecretPath at h
  cases hv : effectivePathValue b sd with
  | ystr s =>
    rw [hv] at h
    exact ⟨s, (Except.ok.inj h).symm⟩
  | ynull => rw [hv] at h; cases h
  | ybool b2 => rw [hv] at h; cases h
  | ynum n => rw [hv] at h; cases h
  | ylist xs => rw [hv] at h; cases h
  | yobj fs => rw [hv] at h; cases h

theorem pushToGroup_keys (acc : List (String × List SecretMappingY)) (path : String)
    (m : SecretMappingY) :
    ∀ k ∈ (pushToGroup acc path m).map Prod.fst, k ∈ acc.map Prod.fst ∨ k = path := by
  induction acc with
  | nil =>
    intro k hk
    simp only [pushToGroup, List.map_cons, List.map_nil, List.mem_cons,
      List.not_mem_nil, or_false] at hk
    exact Or.inr hk
  | cons hd tl ih =>
    obtain ⟨p, ms⟩ := hd
    intro k hk
    simp only [pushToGroup] at hk
    by_cases hp : p = path
    · rw [if_pos hp] at hk
      simp only [List.map_cons, List.mem_cons] at hk
      rcases hk with hk | hk
      · exact Or.inl (by simp [hk])
      · exact Or.inl (by simp only [List.map_cons, List.mem_cons]; exact Or.inr hk)
    · rw [if_neg hp] at hk
      simp only [List.map_cons, List.mem_cons] at hk
      rcases hk with hk | hk
      · exact Or.inl (by simp [hk])
      · rcases ih k hk with h1 | h1
        · exact Or.inl (by simp only [List.map_cons, List.mem_cons]; exact Or.inr h1)
        · exact Or.inr h1

theorem pushToGroup_mappings (acc : List (String × List SecretMappingY)) (path : String)
    (m : SecretMappingY) :
    ∀ x ∈ mappingsOf (pushToGroup acc path m), x ∈ mappingsOf acc ∨ x = m := by
  induction acc with
  | nil =>
    intro x hx
    simp only [pushToGroup, mappingsOf, List.map_cons, List.map_nil, List.flatten_cons,
      List.flatten_nil, List.append_nil, List.mem_singleton] at hx
    exact Or.inr hx
  | cons hd tl ih =>
    obtain ⟨p, ms⟩ := hd
    intro x hx
    simp only [pushToGroup] at hx
    by_cases hp : p = path
    · rw [if_pos hp] at hx
      rw [mappingsOf_cons] at hx
      rcases List.mem_append.mp hx with hx | hx
      · rcases List.mem_append.mp hx with hx | hx
        · exact Or.inl (by rw [mappingsOf_cons]; exact List.mem_append.mpr (Or.inl hx))
        · exact Or.inr (List.mem_singleton.mp hx)
      · exact Or.inl (by rw [mappingsOf_cons]; exact List.mem_append.mpr (Or.inr hx))
    · rw [if_neg hp] at hx
      rw [mappingsOf_cons] at hx
      rcases List.mem_append.mp hx with hx | hx
      · exact Or.inl (by rw [mappingsOf_cons]; exact List.mem_append.mpr (Or.inl hx))
      · rcases ih x hx with h1 | h1
        · exact Or.inl (by rw [mappingsOf_cons]; exact List.mem_append.mpr (Or.inr h1))
        · exact Or.inr h1

theorem addSecretMapping_keys (b t : Yaml) (acc out : List (String × List SecretMappingY))
    (sd : SecretDefY) (h : addSecretMapping b t acc sd = .ok out) :
    ∀ k ∈ out.map Prod.fst, k ∈ acc.map Prod.fst ∨ resolveSecretPath b sd = .ok k := by
  unfold addSecretMapping at h
  cases hp : resolveSecretPath b sd with
  | error e => rw [hp] at h; cases h
  | ok path =>
    rw [hp] at h
    cases hm : computeSecretMapping t sd with
    | error e => rw [hm] at h; cases h
    | ok m =>
      rw [hm] at h
      cases h
      intro k hk
      rcases pushToGroup_keys acc path m k hk with h1 | h1
      · exact Or.inl h1
      · exact Or.inr (by rw [h1])

theorem addSecretMapping_mappings (b t : Yaml) (acc out : List (String × List SecretMappingY))
    (sd : SecretDefY) (h : addSecretMapping b t acc sd = .ok out) :
    ∀ x ∈ mappingsOf out, x ∈ mappingsOf acc ∨ computeSecretMapping t sd = .ok x := by
  unfold addSecretMapping at h
  cases hp : resolveSecretPath b sd with
  | error e => rw [hp] at h; cases h
  | ok path =>
    rw [hp] at h
    cases hm : computeSecretMapping t sd with
    | error e => rw [hm] at h; cases h
    | ok m =>
      rw [hm] at h
      cases h
      intro x hx
      rcases pushToGroup_mappings acc path m x hx with h1 | h1
      · exact Or.inl h1
      · exact Or.inr (by rw [h1])

theorem foldlM_addSecretMapping_keys (b t : Yaml) (secrets : List SecretDefY) :
    ∀ (acc out : List (String × List SecretMappingY)),
      secrets.foldlM (addSecretMapping b t) acc = .ok out →
      ∀ k ∈ out.map Prod.fst,
        k ∈ acc.map Prod.fst ∨ ∃ sd, resolveSecretPath b sd = .ok k := by
  induction secrets with
  | nil =>
    intro acc out h k hk
    cases h
    exact Or.inl hk
  | cons sd rest ih =>
    intro acc out h
    rw [List.foldlM_cons] at h
    obtain ⟨acc2, hstep, h2⟩ := Except_bind_eq_ok h
    intro k hk
    rcases ih acc2 out h2 k hk with h1 | h1
    · rcases addSecretMapping_keys b t acc acc2 sd hstep k h1 with h3 | h3
      · exact Or.inl h3
      · exact Or.inr ⟨sd, h3⟩
    · exact Or.inr h1

theorem foldlM_addSecretMapping_mappings (b t : Yaml) (secrets : List SecretDefY) :
    ∀ (acc out : List (String × List SecretMappingY)),
      secrets.foldlM (addSecretMapping b t) acc = .ok out →
      ∀ x ∈ mappingsOf out,
        x ∈ mappingsOf acc ∨ ∃ sd ∈ secrets, computeSecretMapping t sd = .ok x := by
  induction secrets with
  | nil =>
    intro acc out h x hx
    cases h
    exact Or.inl hx
  | cons sd rest ih =>
    intro acc out h
    rw [List.foldlM_cons] at h
    obtain ⟨acc2, hstep, h2⟩ := Except_bind_eq_ok h
    intro x hx
    rcases ih acc2 out h2 x hx with h1 | h1
    · rcases addSecretMapping_mappings b t acc acc2 sd hstep x h1 with h3 | h3
      · exact Or.inl h3
      · exact Or.inr ⟨sd, List.mem_cons_self sd rest, h3⟩
    · rcases h1 with ⟨sd2, hsd2, hc⟩
      exact Or.inr ⟨sd2, List.mem_cons_of_mem sd hsd2, hc⟩

theorem jsOrY_of_falsy (a : Option Yaml) (b : Yaml) (h : truthyO a = false) : jsOrY a b = b := by
  cases a with
  | none => rfl
  | some v =>
    simp only [truthyO] at h
    simp [jsOrY, h]

theorem computeSecretMapping_fields (t : Yaml) (sd : SecretDefY) (m : SecretMappingY)
    (h : computeSecretMapping t sd = .ok m) :
    m.envVar = sd.name ∧
      m.triggerRedeploy = resolveTriggerRedeploy sd.triggerRedeploy t := by
  unfold computeSecretMapping at h
  by_cases hk : truthy sd.key = true
  · rw [if_pos hk] at h
    cases h
    exact ⟨rfl, rfl⟩
  · rw [if_neg hk] at h
    cases hl : jsToLowerCase sd.name with
    | error e => rw [hl] at h; cases h
    | ok k =>
      rw [hl] at h
      cases h
      exact ⟨rfl, rfl⟩

/-- `parseAndNormalizeSecretsFile` succeeds exactly by a successful parse
followed by a successful grouping fold; the result's fields are determined
by those. -/
theorem parseAndNormalize_ok_elim (root : Option Yaml) (d : String)
    (cfg : ParsedSecretsConfigY) (h : parseAndNormalizeSecretsFile root d = .ok cfg) :
    ∃ config, parseSecretsFile root = .ok config ∧
      cfg.vaultPath = jsOrY (config.vault.bind (·.path)) (.ystr d) ∧
      cfg.triggerRedeployDefault =
        jsNullish (config.vault.map (·.triggerRedeploy)) (.ybool false) ∧
      config.secrets.foldlM
        (addSecretMapping (jsOrY (config.vault.bind (·.path)) (.ystr d))
          (jsNullish (config.vault.map (·.triggerRedeploy)) (.ybool false))) []
        = .ok cfg.secretsByPath := by
  unfold parseAndNormalizeSecretsFile at h
  cases hp : parseSecretsFile root with
  | error e => rw [hp] at h; cases h
  | ok config =>
    rw [hp] at h
    dsimp only at h
    cases hf : config.secrets.foldlM
        (addSecretMapping (jsOrY (config.vault.bind (·.path)) (.ystr d))
          (jsNullish (config.vault.map (·.triggerRedeploy)) (.ybool false))) [] with
    | error e => rw [hf] at h; cases h
    | ok groups =>
      rw [hf] at h
      cases h
      exact ⟨config, rfl, rfl, rfl, hf⟩

/-- The vault-section extraction never throws: property reads happen only on
values already known to be truthy (hence non-null). -/
theorem parseVaultSection_ok (vF : Option Yaml) : ∃ r, parseVaultSection vF = .ok r := by
  unfold parseVaultSection
  by_cases h : truthyO vF = true
  · rw [if_pos h]
    cases vF with
    | none => exact ⟨none, rfl⟩
    | some vv =>
      cases vv with
      | ynull => simp [truthyO, truthy] at h
      | ybool b => exact ⟨_, rfl⟩
      | ynum n => exact ⟨_, rfl⟩
      | ystr s => exact ⟨_, rfl⟩
      | ylist xs => exact ⟨_, rfl⟩
      | yobj fields =>
        dsimp only [jsGetProp]
        by_cases ha : truthyO (lookupField fields "auth") = true
        · rw [if_pos ha]
          cases hf : lookupField fields "auth" with
          | none => rw [hf] at ha; simp [truthyO] at ha
          | some av =>
            cases av with
            | ynull => rw [hf] at ha; exact Bool.noConfusion ha
            | ybool b2 => exact ⟨_, rfl⟩
            | ynum n => exact ⟨_, rfl⟩
            | ystr s => exact ⟨_, rfl⟩
            | ylist xs => exact ⟨_, rfl⟩
            | yobj af => exact ⟨_, rfl⟩
        · rw [if_neg ha]
          exact ⟨_, rfl⟩
  · rw [if_neg h]
    exact ⟨none, rfl⟩

theorem parseSecretItems_error_of_mem (items : List Yaml) (it : Yaml) (e : ParseErr)
    (hmem : it ∈ items) (herr : parseSecretItem it = .error e) :
    ∃ e2, parseSecretItems items = .error e2 := by
  induction items with
  | nil => cases hmem
  | cons a rest ih =>
    rcases List.mem_cons.mp hmem with h1 | h1
    · subst h1
      exact ⟨e, by simp [parseSecretItems, herr]⟩
    · cases ha : parseSecretItem a with
      | error e3 => exact ⟨e3, by simp [parseSecretItems, ha]⟩
      | ok b =>
        obtain ⟨e2, h2⟩ := ih h1
        exact ⟨e2, by simp [parseSecretItems, ha, h2]⟩

-- =============================================================================
-- Claims C2, C3, C5, C9 (manifest parser)
-- =============================================================================

/-- C2 (counterexample): the sync pipeline reads the manifest via
`readSecretsFile`, which always invokes the parser with the hard-coded
default base path `"secret/data"`; the global vault configuration is
fetched only afterwards and its `defaultPath` is never passed.  For a
manifest with no `vault.path` and a global config whose `defaultPath` is
`"kv/data/custom"`, the normalized base path is `"secret/data"`, not the
global `defaultPath` — refuting the claim as stated. -/
theorem claim_C2_counterexample :
    (readSecretsFile (some (some (.yobj [("secrets", .ylist [.ystr "db"])])))).map
        (Option.map (·.vaultPath)) = .ok (some (.ystr "secret/data")) ∧
    ({ address := "https://vault.example", authMethod := "token", enabled := true,
       defaultPath := some "kv/data/custom" } : StoredVaultConfig).defaultPath =
      some "kv/data/custom" ∧
    Yaml.ystr "secret/data" ≠ Yaml.ystr "kv/data/custom" := by
  refine ⟨rfl, rfl, ?_⟩
  simp

/-- C2 (amended): for every manifest without a truthy `vault.path`, the
normalized base path equals the parser's `defaultPath` parameter; and the
sync pipeline's `readSecretsFile` always calls the parser with the
hard-coded `"secret/data"`, so the global configuration's `defaultPath`
never fills in. -/
theorem claim_C2_base_path_fallback (root : Option Yaml) (d : String)
    (config : SecretsFileConfigY) (cfg : ParsedSecretsConfigY)
    (hparse : parseSecretsFile root = .ok config)
    (hsilent : truthyO (config.vault.bind (·.path)) = false)
    (hnorm : parseAndNormalizeSecretsFile root d = .ok cfg) :
    cfg.vaultPath = .ystr d ∧
      ∀ fileRoot : Option Yaml, readSecretsFile (some fileRoot) =
        (parseAndNormalizeSecretsFile fileRoot "secret/data").map some := by
  constructor
  · obtain ⟨config2, hp2, hbase, _, _⟩ := parseAndNormalize_ok_elim root d cfg hnorm
    rw [hparse] at hp2
    cases hp2
    rw [hbase]
    exact jsOrY_of_falsy _ _ hsilent
  · intro fileRoot
    unfold readSecretsFile
    dsimp only
    cases h2 : parseAndNormalizeSecretsFile fileRoot "secret/data" with
    | error e => rfl
    | ok c => rfl

/-- C2 (witness for the amended theorem): a manifest with no `vault` block,
normalized with default path `"custom/base"`, resolves its base path to
exactly `"custom/base"`. -/
theorem claim_C2_base_path_fallback_witness :
    (⟨.ystr "custom/base", none, none, none,
      [("custom/data/base", [⟨.ystr "DB", .ystr "db", .ybool false⟩])],
      .ybool false⟩ : ParsedSecretsConfigY).vaultPath = .ystr "custom/base" ∧
      ∀ fileRoot : Option Yaml, readSecretsFile (some fileRoot) =
        (parseAndNormalizeSecretsFile fileRoot "secret/data").map some :=
  claim_C2_base_path_fallback (some (.yobj [("secrets", .ylist [.ystr "db"])]))
    "custom/base" ⟨none, [⟨.ystr "DB", .ystr "db", none, none⟩]⟩ _ rfl rfl rfl

/-- C3: the resolved `triggerRedeploy` of every mapping produced by the
normalizer equals the secret's own flag when set, else the manifest-level
default (itself `false` when absent); in particular, end to end, for all
nine combinations of global default (absent, `false`, `true`) and secret
override (absent, `false`, `true`), a one-secret manifest resolves to
`override.getD (global.getD false)`. -/
theorem claim_C3_trigger_redeploy :
    (∀ (root : Option Yaml) (d : String) (config : SecretsFileConfigY)
        (cfg : ParsedSecretsConfigY),
      parseSecretsFile root = .ok config →
      parseAndNormalizeSecretsFile root d = .ok cfg →
      ∀ m ∈ mappingsOf cfg.secretsByPath,
        ∃ sd ∈ config.secrets,
          m.triggerRedeploy =
            resolveTriggerRedeploy sd.triggerRedeploy
              (jsNullish (config.vault.map (·.triggerRedeploy)) (.ybool false))) ∧
    (∀ g so : Option Bool,
      parseAndNormalizeSecretsFile
        (some (.yobj [("vault", .yobj
            (match g with
             | some b => [("triggerRedeploy", Yaml.ybool b)]
             | none => [])),
          ("secrets", .ylist [.yobj
            ([("name", .ystr "A"), ("key", .ystr "a")] ++
             (match so with
              | some b => [("triggerRedeploy", Yaml.ybool b)]
              | none => []))])]))
        "secret/data"
      = .ok ⟨.ystr "secret/data", none, none, none,
             [("secret/data/data", [⟨.ystr "A", .ystr "a", .ybool (so.getD (g.getD false))⟩])],
             .ybool (g.getD false)⟩) := by
  constructor
  · intro root d config cfg hparse hnorm m hm
    obtain ⟨config2, hp2, _, _, hfold⟩ := parseAndNormalize_ok_elim root d cfg hnorm
    rw [hparse] at hp2
    cases hp2
    rcases foldlM_addSecretMapping_mappings _ _ config.secrets [] cfg.secretsByPath hfold m hm
      with h1 | ⟨sd, hsd, hc⟩
    · simp [mappingsOf] at h1
    · exact ⟨sd, hsd, (computeSecretMapping_fields _ sd m hc).2⟩
  · intro g so
    rcases g with _ | gb <;> rcases so with _ | sb <;> rfl

/-- C3 (witness): a manifest with global default `true` and a bare-string
secret (no override) resolves the mapping's flag to the global default. -/
theorem claim_C3_trigger_redeploy_witness :
    ∃ sd ∈ ([⟨.ystr "DB", .ystr "db", none, none⟩] : List SecretDefY),
      (⟨.ystr "DB", .ystr "db", .ybool true⟩ : SecretMappingY).triggerRedeploy =
        resolveTriggerRedeploy sd.triggerRedeploy
          (jsNullish ((some ⟨none, none, none, .ybool true, none⟩ : Option VaultSectionY).map
            (·.triggerRedeploy)) (.ybool false)) :=
  claim_C3_trigger_redeploy.1
    (some (.yobj [("vault", .yobj [("triggerRedeploy", .ybool true)]),
      ("secrets", .ylist [.ystr "db"])]))
    "secret/data"
    ⟨some ⟨none, none, none, .ybool true, none⟩, [⟨.ystr "DB", .ystr "db", none, none⟩]⟩
    ⟨.ystr "secret/data", none, none, none,
      [("secret/data/data", [⟨.ystr "DB", .ystr "db", .ybool true⟩])], .ybool true⟩
    rfl rfl ⟨.ystr "DB", .ystr "db", .ybool true⟩ (by simp [mappingsOf])

/-- C5 (counterexample): a secret whose resolved path is the single segment
`"mount"` is grouped under the key `"mount"`, which does not contain
`/data/` — the injection only fires for paths of at least two segments,
refuting "including paths consisting of a single segment". -/
theorem claim_C5_counterexample :
    (parseAndNormalizeSecretsFile
        (some (.yobj [("secrets",
          .ylist [.yobj [("name", .ystr "A"), ("path", .ystr "mount")]])])) "secret/data").map
      (fun c => c.secretsByPath.map Prod.fst) = .ok ["mount"] ∧
    jsIncludes "mount" "/data/" = false := by
  exact ⟨rfl, by decide⟩

/-- C5 (amended): every key of `secretsByPath` either contains the `/data/`
marker or consists of a single `/`-free segment; the rewrite injects `data`
after the first segment only when the path splits into at least two
segments. -/
theorem claim_C5_path_marker (root : Option Yaml) (d : String) (cfg : ParsedSecretsConfigY)
    (h : parseAndNormalizeSecretsFile root d = .ok cfg) :
    ∀ p ∈ cfg.secretsByPath.map Prod.fst,
      jsIncludes p "/data/" = true ∨ singleSegment p = true := by
  obtain ⟨config, _, _, _, hfold⟩ := parseAndNormalize_ok_elim root d cfg h
  intro p hpmem
  rcases foldlM_addSecretMapping_keys _ _ config.secrets [] cfg.secretsByPath hfold p hpmem
    with h1 | ⟨sd, hsd⟩
  · simp at h1
  · obtain ⟨raw, hraw⟩ := resolveSecretPath_shape _ sd p hsd
    rw [hraw]
    exact normalizeSecretPath_spec raw

/-- C5 (witness): the default base path `"secret/data"` is rewritten to
`"secret/data/data"`, which contains the marker. -/
theorem claim_C5_path_marker_witness :
    jsIncludes "secret/data/data" "/data/" = true ∨
      singleSegment "secret/data/data" = true :=
  claim_C5_path_marker (some (.yobj [("secrets", .ylist [.ystr "db"])])) "secret/data"
    ⟨.ystr "secret/data", none, none, none,
      [("secret/data/data", [⟨.ystr "DB", .ystr "db", .ybool false⟩])], .ybool false⟩
    rfl "secret/data/data" (by simp)

/-- C9 (counterexample): a `null` list item satisfies `typeof item === "object"`,
so the parser reads `item.name` and the engine throws a `TypeError` about
reading a property of `null` — not the `Invalid secret definition: ...`
error naming the offending item that every other bad shape gets. -/
theorem claim_C9_counterexample :
    parseSecretsFile (some (.yobj [("secrets", .ylist [.ynull])])) =
      .error (.typeError "Cannot read properties of null (reading name)") ∧
    ParseErr.typeError "Cannot read properties of null (reading name)" ≠
      ParseErr.invalidSecretDef .ynull := by
  refine ⟨rfl, ?_⟩
  simp

/-- C9 (amended): parsing fails when the root is not a truthy object or when
`secrets` is missing or not a list; a bare string item `S` expands to
uppercase/lowercase name/key with `triggerRedeploy` unset; an object item
requires a truthy `name` and defaults `key` to the lowercased name; a
boolean, number, or array item (and an object without truthy `name`) fails
with an error naming the offending item; a `null` item instead fails with a
`TypeError` from reading its `name` property; any failing item makes the
whole parse fail. -/
theorem claim_C9_parser_shapes :
    (∀ root : Option Yaml, truthyO root = false ∨ jsTypeof root ≠ "object" →
      parseSecretsFile root = .error .invalidRoot) ∧
    (∀ fields : List (String × Yaml),
      (∀ xs, lookupField fields "secrets" ≠ some (.ylist xs)) →
      parseSecretsFile (some (.yobj fields)) = .error .secretsNotArray) ∧
    (∀ s : String, parseSecretItem (.ystr s) =
      .ok ⟨.ystr (jsStrToUpper s), .ystr (jsStrToLower s), none, none⟩) ∧
    (∀ fields, truthyO (lookupField fields "name") = false →
      parseSecretItem (.yobj fields) = .error (.invalidSecretDef (.yobj fields))) ∧
    (∀ fields n, lookupField fields "name" = some (.ystr n) → n ≠ "" →
      truthyO (lookupField fields "key") = false →
      parseSecretItem (.yobj fields) =
        .ok ⟨.ystr n, .ystr (jsStrToLower n), lookupField fields "path",
             lookupField fields "triggerRedeploy"⟩) ∧
    (∀ b, parseSecretItem (.ybool b) = .error (.invalidSecretDef (.ybool b))) ∧
    (∀ n, parseSecretItem (.ynum n) = .error (.invalidSecretDef (.ynum n))) ∧
    (∀ xs, parseSecretItem (.ylist xs) = .error (.invalidSecretDef (.ylist xs))) ∧
    (parseSecretItem .ynull =
      .error (.typeError "Cannot read properties of null (reading name)")) ∧
    (∀ fields items it e, lookupField fields "secrets" = some (.ylist items) →
      it ∈ items → parseSecretItem it = .error e →
      ∃ e2, parseSecretsFile (some (.yobj fields)) = .error e2) := by
  refine ⟨?_, ?_, ?_, ?_, ?_, ?_, ?_, ?_, ?_, ?_⟩
  · intro root hr
    have hc : ¬ (truthyO root = true) ∨ jsTypeof root ≠ "object" := by
      rcases hr with h | h
      · exact Or.inl (by simp [h])
      · exact Or.inr h
    unfold parseSecretsFile
    rw [if_pos hc]
  · intro fields hno
    unfold parseSecretsFile
    rw [if_neg (by simp [truthyO, truthy, jsTypeof])]
    dsimp only [jsGetProp]
    obtain ⟨r, hr⟩ := parseVaultSection_ok (lookupField fields "vault")
    rw [hr]
    dsimp only
    cases hs : lookupField fields "secrets" with
    | none => rfl
    | some y =>
      cases y with
      | ynull => rfl
      | ybool b => split <;> rfl
      | ynum n => split <;> rfl
      | ystr s => split <;> rfl
      | ylist xs => exact absurd hs (hno xs)
      | yobj fs2 => rfl
  · intro s; rfl
  · intro fields hname
    cases hn : lookupField fields "name" with
    | none => simp [parseSecretItem, jsTypeof, jsGetProp, hn]
    | some n =>
      rw [hn] at hname
      simp only [truthyO] at hname
      simp [parseSecretItem, jsTypeof, jsGetProp, hn, hname]
  · intro fields n hn hne hkey
    simp [parseSecretItem, jsTypeof, jsGetProp, hn, hkey, truthy, hne, jsToLowerCase]
  · intro b; rfl
  · intro n; rfl
  · intro xs; rfl
  · rfl
  · intro fields items it e hs hmem herr
    obtain ⟨e2, h2⟩ := parseSecretItems_error_of_mem items it e hmem herr
    refine ⟨e2, ?_⟩
    unfold parseSecretsFile
    rw [if_neg (by simp [truthyO, truthy, jsTypeof])]
    dsimp only [jsGetProp]
    obtain ⟨r, hr⟩ := parseVaultSection_ok (lookupField fields "vault")
    rw [hr]
    dsimp only
    rw [hs]
    rw [if_neg (by simp [truthyO, truthy])]
    dsimp only
    rw [h2]

/-- C9 (witness): concrete instances — a string root is rejected, a manifest
without `secrets` is rejected, an object item without `name` is rejected
naming the item, a bare object item defaults its key, and a manifest whose
item list contains a boolean fails to parse. -/
theorem claim_C9_parser_shapes_witness :
    parseSecretsFile (some (.ystr "nope")) = .error .invalidRoot ∧
    parseSecretsFile (some (.yobj [("other", .ynum 1)])) = .error .secretsNotArray ∧
    parseSecretItem (.yobj [("key", .ystr "k")]) =
      .error (.invalidSecretDef (.yobj [("key", .ystr "k")])) ∧
    parseSecretItem (.yobj [("name", .ystr "Db")]) =
      .ok ⟨.ystr "Db", .ystr (jsStrToLower "Db"), lookupField [("name", .ystr "Db")] "path",
           lookupField [("name", .ystr "Db")] "triggerRedeploy"⟩ ∧
    (∃ e2, parseSecretsFile (some (.yobj [("secrets", .ylist [.ybool true])])) = .error e2) := by
  obtain ⟨h1, h2, _, h4, h5, h6, _, _, _, h10⟩ := claim_C9_parser_shapes
  exact ⟨h1 (some (.ystr "nope")) (Or.inr (by decide)),
    h2 [("other", .ynum 1)] (fun xs => by simp [lookupField]),
    h4 [("key", .ystr "k")] (by simp [lookupField, truthyO]),
    h5 [("name", .ystr "Db")] "Db" rfl (by decide) (by simp [lookupField, truthyO]),
    h10 [("secrets", .ylist [.ybool true])] [.ybool true] (.ybool true)
      (.invalidSecretDef (.ybool true)) rfl (by simp) (h6 true)⟩

-- =============================================================================
-- Helper lemmas: the diff loop and the orchestrator
-- =============================================================================

theorem isEmpty_false_iff (l : List String) : l.isEmpty = false ↔ l ≠ [] := by
  cases l <;> simp

theorem diffPhase_eq (existing : List (String × String)) (trMap : List (String × Bool))
    (l : List EnvSecret) :
    diffPhase existing l trMap =
      ((l.filter (changedFlag existing)).map (·.key),
       (l.filter (fun s => changedFlag existing s &&
          (assocGet trMap s.key).getD false)).map (·.key)) := by
  have aux : ∀ (l2 : List EnvSecret) (acc : List String × List String),
      l2.foldl (diffStep existing trMap) acc =
        (acc.1 ++ (l2.filter (changedFlag existing)).map (·.key),
         acc.2 ++ (l2.filter (fun s => changedFlag existing s &&
            (assocGet trMap s.key).getD false)).map (·.key)) := by
    intro l2
    induction l2 with
    | nil => intro acc; simp
    | cons s rest ih =>
      intro acc
      rw [List.foldl_cons, ih]
      by_cases hc : changedFlag existing s = true
      · by_cases ht : (assocGet trMap s.key).getD false = true
        · simp [diffStep, hc, ht, List.filter_cons]
        · simp only [Bool.not_eq_true] at ht
          simp [diffStep, hc, ht, List.filter_cons]
      · simp only [Bool.not_eq_true] at hc
        simp [diffStep, hc, List.filter_cons]
  rw [diffPhase, aux]
  simp

theorem getD_false_eq_true_iff (o : Option Bool) : o.getD false = true ↔ o = some true := by
  cases o with
  | none => simp
  | some b => cases b <;> simp

-- =============================================================================
-- Claims C1 and C4 (sync orchestrator)
-- =============================================================================

/-- The effect environment of the C1 counterexample: a secrets file is
present and parses, but the database read behind `getVaultConfig()` throws
`database unavailable`. -/
def envC1 : SyncEnv :=
  ⟨.ok (some ⟨"base", none, none, none, [("p", [⟨"A", "a", false⟩])], false⟩),
   .error "database unavailable",
   fun _ => .ok (fun _ => .ok []),
   .ok [],
   fun _ => .ok ()⟩

/-- C1 (counterexample): `await getVaultConfig()` (vault-sync.ts line 102)
is the one effect call of `syncStackSecrets` outside every try/catch; when
that database read throws, the exception propagates to the caller instead
of a `SyncResult` being returned — refuting "never throws". -/
theorem claim_C1_counterexample :
    syncStackSecrets envC1 = .error "database unavailable" ∧
    (syncStackSecrets envC1).isOk = false := by
  exact ⟨rfl, rfl⟩

/-- C1 (amended): `syncStackSecrets` never lets an exception escape except
when the global-vault-configuration load itself throws (the unguarded
`await getVaultConfig()` at line 102): whenever that load returns (even
`null`), the function returns a `SyncResult`, which reports failure exactly
when `errors` is non-empty — every caught failure path (manifest parse
failure, missing/disabled vault configuration, client
construction/authentication failure, fetch failure, persistence failure)
carries a human-readable entry in `errors`; conversely, any escaping
exception is exactly the config load's. -/
theorem claim_C1_no_throw_except_config :
    (∀ (env : SyncEnv) (gv : Option StoredVaultConfig),
      env.getVaultConfig = .ok gv →
      ∃ outcome, syncStackSecrets env = .ok outcome ∧
        (outcome.result.success = false ↔ outcome.result.errors ≠ [])) ∧
    (∀ (env : SyncEnv) (e : String),
      syncStackSecrets env = .error e → env.getVaultConfig = .error e) := by
  constructor
  · intro env gv hgv
    unfold syncStackSecrets
    cases hr : env.readSecretsFile with
    | error e => exact ⟨_, rfl, by simp⟩
    | ok o =>
      cases o with
      | none => exact ⟨_, rfl, by simp⟩
      | some cfg =>
        rw [hgv]
        cases gv with
        | none => exact ⟨_, rfl, by simp⟩
        | some g =>
          dsimp only
          by_cases he : g.enabled = false
          · rw [if_pos he]
            exact ⟨_, rfl, by simp⟩
          · rw [if_neg he]
            cases hc : env.createVaultClient (effectiveVaultConfig cfg g) with
            | error e => exact ⟨_, rfl, by simp⟩
            | ok readSecret =>
              dsimp only
              by_cases hemp :
                  (fetchPhase readSecret cfg.secretsByPath).allSecrets.isEmpty = true
              · rw [if_pos hemp]
                exact ⟨_, rfl, isEmpty_false_iff _⟩
              · rw [if_neg hemp]
                cases hu : env.upsertStackEnvVars
                    (fetchPhase readSecret cfg.secretsByPath).allSecrets with
                | error e => exact ⟨_, rfl, by simp⟩
                | ok u => exact ⟨_, rfl, isEmpty_false_iff _⟩
  · intro env e herr
    unfold syncStackSecrets at herr
    cases hr : env.readSecretsFile with
    | error e2 => rw [hr] at herr; cases herr
    | ok o =>
      rw [hr] at herr
      cases o with
      | none => cases herr
      | some cfg =>
        cases hg : env.getVaultConfig with
        | error e2 =>
          rw [hg] at herr
          cases herr
          rfl
        | ok gv =>
          rw [hg] at herr
          cases gv with
          | none => cases herr
          | some g =>
            dsimp only at herr
            by_cases he : g.enabled = false
            · rw [if_pos he] at herr; cases herr
            · rw [if_neg he] at herr
              cases hc : env.createVaultClient (effectiveVaultConfig cfg g) with
              | error e2 => rw [hc] at herr; cases herr
              | ok readSecret =>
                rw [hc] at herr
                dsimp only at herr
                by_cases hemp :
                    (fetchPhase readSecret cfg.secretsByPath).allSecrets.isEmpty = true
                · rw [if_pos hemp] at herr; cases herr
                · rw [if_neg hemp] at herr
                  cases hu : env.upsertStackEnvVars
                      (fetchPhase readSecret cfg.secretsByPath).allSecrets with
                  | error e2 => rw [hu] at herr; cases herr
                  | ok u => rw [hu] at herr; cases herr

/-- C1 (witness for the amended theorem): with a config load that returns
no row, the sync returns (rather than throws) a failure result whose
`errors` is non-empty. -/
theorem claim_C1_no_throw_except_config_witness :
    ∃ outcome,
      syncStackSecrets
        ⟨.ok (some ⟨"base", none, none, none, [("p", [⟨"A", "a", false⟩])], false⟩),
         .ok none,
         fun _ => .ok (fun _ => .ok []),
         .ok [],
         fun _ => .ok ()⟩ = .ok outcome ∧
      (outcome.result.success = false ↔ outcome.result.errors ≠ []) :=
  claim_C1_no_throw_except_config.1
    ⟨.ok (some ⟨"base", none, none, none, [("p", [⟨"A", "a", false⟩])], false⟩),
     .ok none,
     fun _ => .ok (fun _ => .ok []),
     .ok [],
     fun _ => .ok ()⟩ none rfl

/-- C4: in the diff phase of `syncStackSecrets`, a fetched secret with no
prior stored value is always classified as changed; with a prior value it
is changed iff the strings differ (given distinct env-var names);
`triggerRedeploySecrets` holds exactly the changed names whose recorded
flag is `true` (so an unchanged secret never triggers a redeploy); and the
`SyncResult` returned by `syncStackSecrets` carries exactly the diff
phase's `triggerRedeploySecrets` whenever the fetch stage was reached. -/
theorem claim_C4_change_classification :
    (∀ (existing : List (String × String)) (trMap : List (String × Bool))
        (allSecrets : List EnvSecret),
      ∀ s ∈ allSecrets, assocGet existing s.key = none →
        s.key ∈ (diffPhase existing allSecrets trMap).1) ∧
    (∀ (existing : List (String × String)) (trMap : List (String × Bool))
        (allSecrets : List EnvSecret),
      (allSecrets.map (·.key)).Nodup →
      ∀ s ∈ allSecrets, ∀ old, assocGet existing s.key = some old →
        (s.key ∈ (diffPhase existing allSecrets trMap).1 ↔ old ≠ s.value)) ∧
    (∀ (existing : List (String × String)) (trMap : List (String × Bool))
        (allSecrets : List EnvSecret) (x : String),
      x ∈ (diffPhase existing allSecrets trMap).2 ↔
        x ∈ (diffPhase existing allSecrets trMap).1 ∧ assocGet trMap x = some true) ∧
    (∀ (env : SyncEnv) (cfg : ParsedSecretsConfig) (g : StoredVaultConfig)
        (readSecret : String → Except String (List (String × String))),
      env.readSecretsFile = .ok (some cfg) →
      env.getVaultConfig = .ok (some g) →
      g.enabled = true →
      env.createVaultClient (effectiveVaultConfig cfg g) = .ok readSecret →
      (syncStackSecrets env).map (fun o => o.result.triggerRedeploySecrets) =
        .ok (diffPhase
          (match env.getSecretEnvVarsAsRecord with
           | .ok r => r
           | .error _ => [])
          (fetchPhase readSecret cfg.secretsByPath).allSecrets
          (fetchPhase readSecret cfg.secretsByPath).trMap).2) := by
  refine ⟨?_, ?_, ?_, ?_⟩
  · intro existing trMap allSecrets s hs hnone
    rw [diffPhase_eq]
    exact List.mem_map.mpr ⟨s, List.mem_filter.mpr ⟨hs, by simp [changedFlag, hnone]⟩, rfl⟩
  · intro existing trMap allSecrets hnd s hs old hold
    rw [diffPhase_eq]
    constructor
    · intro hmem
      obtain ⟨s2, hs2, hkey⟩ := List.mem_map.mp hmem
      obtain ⟨hs2mem, hs2flag⟩ := List.mem_filter.mp hs2
      have : s2 = s := List.inj_on_of_nodup_map hnd hs2mem hs hkey
      subst this
      rw [changedFlag, hold] at hs2flag
      intro hcontra
      rw [hcontra] at hs2flag
      simp at hs2flag
    · intro hne
      exact List.mem_map.mpr ⟨s, List.mem_filter.mpr ⟨hs, by simp [changedFlag, hold, hne]⟩, rfl⟩
  · intro existing trMap allSecrets x
    rw [diffPhase_eq]
    constructor
    · intro hmem
      obtain ⟨s, hs, hkey⟩ := List.mem_map.mp hmem
      obtain ⟨hsmem, hsflag⟩ := List.mem_filter.mp hs
      rw [Bool.and_eq_true] at hsflag
      subst hkey
      exact ⟨List.mem_map.mpr ⟨s, List.mem_filter.mpr ⟨hsmem, hsflag.1⟩, rfl⟩,
        (getD_false_eq_true_iff _).mp hsflag.2⟩
    · rintro ⟨hchanged, hflag⟩
      obtain ⟨s, hs, hkey⟩ := List.mem_map.mp hchanged
      obtain ⟨hsmem, hsflag⟩ := List.mem_filter.mp hs
      subst hkey
      refine List.mem_map.mpr ⟨s, List.mem_filter.mpr ⟨hsmem, ?_⟩, rfl⟩
      rw [Bool.and_eq_true]
      exact ⟨hsflag, (getD_false_eq_true_iff _).mpr hflag⟩
  · intro env cfg g readSecret h1 h2 h3 h4
    unfold syncStackSecrets
    rw [h1, h2]
    dsimp only
    rw [if_neg (by simp [h3])]
    rw [h4]
    dsimp only
    by_cases hemp : (fetchPhase readSecret cfg.secretsByPath).allSecrets.isEmpty = true
    · rw [if_pos hemp]
      rfl
    · rw [if_neg hemp]
      cases hu : env.upsertStackEnvVars
          (fetchPhase readSecret cfg.secretsByPath).allSecrets with
      | error e => rfl
      | ok u => rfl

/-- C4 (witness): with stored value only for `B`, fetched values `A=1` (new)
and `B=1` against stored `B=x`, `A` is classified changed with no prior
value, `B` is changed iff `x` differs from `1`, and `A` (flagged) appears
in `triggerRedeploySecrets` exactly as a changed flagged secret. -/
theorem claim_C4_change_classification_witness :
    ("A" ∈ (diffPhase [("B", "x")] [⟨"A", "1", true⟩, ⟨"B", "1", true⟩]
      [("A", true), ("B", true)]).1) ∧
    ("B" ∈ (diffPhase [("B", "x")] [⟨"A", "1", true⟩, ⟨"B", "1", true⟩]
      [("A", true), ("B", true)]).1 ↔ "x" ≠ "1") ∧
    ("A" ∈ (diffPhase [("B", "x")] [⟨"A", "1", true⟩, ⟨"B", "1", true⟩]
      [("A", true), ("B", true)]).2 ↔
      "A" ∈ (diffPhase [("B", "x")] [⟨"A", "1", true⟩, ⟨"B", "1", true⟩]
        [("A", true), ("B", true)]).1 ∧
      assocGet [("A", true), ("B", true)] "A" = some true) := by
  obtain ⟨h1, h2, h3, _⟩ := claim_C4_change_classification
  refine ⟨?_, ?_, ?_⟩
  · exact h1 [("B", "x")] [("A", true), ("B", true)]
      [⟨"A", "1", true⟩, ⟨"B", "1", true⟩] ⟨"A", "1", true⟩ (by simp) rfl
  · exact h2 [("B", "x")] [("A", true), ("B", true)]
      [⟨"A", "1", true⟩, ⟨"B", "1", true⟩] (by simp)
      ⟨"B", "1", true⟩ (by simp) "x" rfl
  · exact h3 [("B", "x")] [("A", true), ("B", true)]
      [⟨"A", "1", true⟩, ⟨"B", "1", true⟩] "A"

-- =============================================================================
-- Claims C7, C8, C10 (fetch omissions and persistence failure)
-- =============================================================================

/-- The effect environment of the C7 scenario: a manifest mapping `A ← a`
and `B ← b` at one path, a vault whose secret at that path contains only
`a`, stored values `existing`, and a succeeding database write. -/
def envC7 (p va : String) (fA fB : Bool) (existing : List (String × String)) : SyncEnv :=
  ⟨.ok (some ⟨"base", none, none, none, [(p, [⟨"A", "a", fA⟩, ⟨"B", "b", fB⟩])], false⟩),
   .ok (some ⟨"https://v", none, none, "token", none, none, none, none, none, true⟩),
   fun _ => .ok (fun _ => .ok [("a", va)]),
   .ok existing,
   fun _ => .ok ()⟩

/-- C7: requesting keys `a` and `b` from a path that only holds `a`,
`getSecrets` returns just the `a` entry (the missing key is omitted, not an
error); the orchestrator then reports `synced = 1`, `success = false`, a
single `errors` entry naming `b` and the path, and still persists the
fetched secret `A`. -/
theorem claim_C7_missing_key (p va : String) (fA fB : Bool)
    (existing : List (String × String)) :
    getSecrets (fun _ => .ok [("a", va)]) p ["a", "b"] = .ok [⟨"a", va⟩] ∧
    (syncStackSecrets (envC7 p va fA fB existing)).map (fun o => o.result.synced) = .ok 1 ∧
    (syncStackSecrets (envC7 p va fA fB existing)).map (fun o => o.result.success) =
      .ok false ∧
    (syncStackSecrets (envC7 p va fA fB existing)).map (fun o => o.result.errors) =
      .ok ["Secret \"b\" not found at path \"" ++ p ++ "\""] ∧
    (syncStackSecrets (envC7 p va fA fB existing)).map (fun o => o.persisted) =
      .ok (some [⟨"A", va, true⟩]) := by
  exact ⟨rfl, rfl, rfl, rfl, rfl⟩

/-- C8: when the database write of the fetched batch throws, the sync
reports `success = false` and `synced = 0` even though secrets were
fetched, and nothing is recorded as persisted. -/
theorem claim_C8_persist_failure (env : SyncEnv) (cfg : ParsedSecretsConfig)
    (g : StoredVaultConfig)
    (readSecret : String → Except String (List (String × String))) (e : String)
    (h1 : env.readSecretsFile = .ok (some cfg))
    (h2 : env.getVaultConfig = .ok (some g))
    (h3 : g.enabled = true)
    (h4 : env.createVaultClient (effectiveVaultConfig cfg g) = .ok readSecret)
    (h5 : (fetchPhase readSecret cfg.secretsByPath).allSecrets ≠ [])
    (h6 : env.upsertStackEnvVars (fetchPhase readSecret cfg.secretsByPath).allSecrets =
      .error e) :
    (syncStackSecrets env).map (fun o => o.result.success) = .ok false ∧
    (syncStackSecrets env).map (fun o => o.result.synced) = .ok 0 ∧
    (syncStackSecrets env).map (fun o => o.persisted) = .ok none := by
  unfold syncStackSecrets
  rw [h1, h2]
  dsimp only
  rw [if_neg (by simp [h3])]
  rw [h4]
  dsimp only
  rw [if_neg (by simp [List.isEmpty_iff]; exact h5)]
  rw [h6]
  exact ⟨rfl, rfl, rfl⟩

/-- The effect environment of the C8 witness: one secret fetched
successfully, database write throws `boom`. -/
def envC8 : SyncEnv :=
  ⟨.ok (some ⟨"base", none, none, none, [("p", [⟨"A", "a", false⟩])], false⟩),
   .ok (some ⟨"https://v", none, none, "token", none, none, none, none, none, true⟩),
   fun _ => .ok (fun _ => .ok [("a", "v")]),
   .ok [],
   fun _ => .error "boom"⟩

/-- C8 (witness): with one fetched secret and a throwing write, the result
is `success = false`, `synced = 0`, nothing persisted. -/
theorem claim_C8_persist_failure_witness :
    (syncStackSecrets envC8).map (fun o => o.result.success) = .ok false ∧
    (syncStackSecrets envC8).map (fun o => o.result.synced) = .ok 0 ∧
    (syncStackSecrets envC8).map (fun o => o.persisted) = .ok none :=
  claim_C8_persist_failure envC8
    ⟨"base", none, none, none, [("p", [⟨"A", "a", false⟩])], false⟩
    ⟨"https://v", none, none, "token", none, none, none, none, none, true⟩
    (fun _ => .ok [("a", "v")]) "boom" rfl rfl rfl rfl (by decide) rfl

/-- C10: when the database write throws, the returned `errors` list is
exactly the single persistence-failure message — per-key and per-path fetch
errors accumulated earlier in the pass are discarded — while
`secretsChanged` and `triggerRedeploySecrets` still report the values
computed by the diff phase before the write. -/
theorem claim_C10_persist_error_replaces (env : SyncEnv) (cfg : ParsedSecretsConfig)
    (g : StoredVaultConfig)
    (readSecret : String → Except String (List (String × String))) (e : String)
    (h1 : env.readSecretsFile = .ok (some cfg))
    (h2 : env.getVaultConfig = .ok (some g))
    (h3 : g.enabled = true)
    (h4 : env.createVaultClient (effectiveVaultConfig cfg g) = .ok readSecret)
    (h5 : (fetchPhase readSecret cfg.secretsByPath).allSecrets ≠ [])
    (h6 : env.upsertStackEnvVars (fetchPhase readSecret cfg.secretsByPath).allSecrets =
      .error e) :
    (syncStackSecrets env).map (fun o => o.result.errors) =
      .ok ["Failed to save secrets to database: " ++ e] ∧
    (syncStackSecrets env).map (fun o => o.result.secretsChanged) =
      .ok (decide (0 < (diffPhase
        (match env.getSecretEnvVarsAsRecord with
         | .ok r => r
         | .error _ => [])
        (fetchPhase readSecret cfg.secretsByPath).allSecrets
        (fetchPhase readSecret cfg.secretsByPath).trMap).1.length)) ∧
    (syncStackSecrets env).map (fun o => o.result.triggerRedeploySecrets) =
      .ok (diffPhase
        (match env.getSecretEnvVarsAsRecord with
         | .ok r => r
         | .error _ => [])
        (fetchPhase readSecret cfg.secretsByPath).allSecrets
        (fetchPhase readSecret cfg.secretsByPath).trMap).2 := by
  unfold syncStackSecrets
  rw [h1, h2]
  dsimp only
  rw [if_neg (by simp [h3])]
  rw [h4]
  dsimp only
  rw [if_neg (by simp [List.isEmpty_iff]; exact h5)]
  rw [h6]
  exact ⟨rfl, rfl, rfl⟩

/-- The effect environment of the C10 witness: key `b` is missing at the
fetched path (producing a fetch error), `a` is fetched, and the database
write throws `down`. -/
def envC10 : SyncEnv :=
  ⟨.ok (some ⟨"base", none, none, none,
      [("p", [⟨"A", "a", true⟩, ⟨"B", "b", true⟩])], false⟩),
   .ok (some ⟨"https://v", none, none, "token", none, none, none, none, none, true⟩),
   fun _ => .ok (fun _ => .ok [("a", "v")]),
   .ok [],
   fun _ => .error "down"⟩

/-- C10 (witness): even with a pending `Secret "b" not found` fetch error,
the returned `errors` list holds only the persistence message, and the
pre-write diff (`A` changed, flagged) is still reported. -/
theorem claim_C10_persist_error_replaces_witness :
    (syncStackSecrets envC10).map (fun o => o.result.errors) =
      .ok ["Failed to save secrets to database: " ++ "down"] ∧
    (syncStackSecrets envC10).map (fun o => o.result.secretsChanged) =
      .ok (decide (0 < (diffPhase
        (match envC10.getSecretEnvVarsAsRecord with
         | .ok r => r
         | .error _ => [])
        (fetchPhase (fun _ => .ok [("a", "v")])
          [("p", [⟨"A", "a", true⟩, ⟨"B", "b", true⟩])]).allSecrets
        (fetchPhase (fun _ => .ok [("a", "v")])
          [("p", [⟨"A", "a", true⟩, ⟨"B", "b", true⟩])]).trMap).1.length)) ∧
    (syncStackSecrets envC10).map (fun o => o.result.triggerRedeploySecrets) =
      .ok (diffPhase
        (match envC10.getSecretEnvVarsAsRecord with
         | .ok r => r
         | .error _ => [])
        (fetchPhase (fun _ => .ok [("a", "v")])
          [("p", [⟨"A", "a", true⟩, ⟨"B", "b", true⟩])]).allSecrets
        (fetchPhase (fun _ => .ok [("a", "v")])
          [("p", [⟨"A", "a", true⟩, ⟨"B", "b", true⟩])]).trMap).2 :=
  claim_C10_persist_error_replaces envC10
    ⟨"base", none, none, none, [("p", [⟨"A", "a", true⟩, ⟨"B", "b", true⟩])], false⟩
    ⟨"https://v", none, none, "token", none, none, none, none, none, true⟩
    (fun _ => .ok [("a", "v")]) "down" rfl rfl rfl rfl (by decide) rfl

-- =============================================================================
-- Claim C6 (fleet sync isolation)
-- =============================================================================

theorem mapSet_append_of_not_mem {β : Type} (m : List (String × β)) (k : String) (v : β)
    (h : k ∉ m.map Prod.fst) : mapSet m k v = m ++ [(k, v)] := by
  induction m with
  | nil => rfl
  | cons hd tl ih =>
    obtain ⟨k0, v0⟩ := hd
    simp only [List.map_cons, List.mem_cons] at h
    push_neg at h
    simp only [mapSet, if_neg (fun hh : k0 = k => h.1 hh.symm)]
    rw [ih h.2]
    simp

theorem fleet_fold_eq (sl : List FleetStack) :
    ∀ acc : List (String × SyncResult),
      (∀ st ∈ sl, st.stackName ∉ acc.map Prod.fst) →
      (sl.map (·.stackName)).Nodup →
      sl.foldl (fun results stack =>
        mapSet results stack.stackName (fleetStackResult stack)) acc =
        acc ++ sl.map (fun st => (st.stackName, fleetStackResult st)) := by
  induction sl with
  | nil => intro acc _ _; simp
  | cons st rest ih =>
    intro acc hnotin hnd
    rw [List.foldl_cons,
      mapSet_append_of_not_mem acc st.stackName (fleetStackResult st)
        (hnotin st (List.mem_cons_self st rest))]
    rw [List.map_cons, List.nodup_cons] at hnd
    rw [ih (acc ++ [(st.stackName, fleetStackResult st)]) ?_ hnd.2]
    · simp
    · intro st2 hst2
      simp only [List.map_append, List.mem_append, List.map_cons, List.map_nil,
        List.mem_singleton, not_or]
      refine ⟨hnotin st2 (List.mem_cons_of_mem st hst2), ?_⟩
      intro hcontra
      exact hnd.1 (hcontra ▸ List.mem_map_of_mem (·.stackName) hst2)

theorem assocGet_fleet_map (sl : List FleetStack) :
    (sl.map (·.stackName)).Nodup →
    ∀ st ∈ sl,
      assocGet (sl.map fun s2 => (s2.stackName, fleetStackResult s2)) st.stackName =
        some (fleetStackResult st) := by
  induction sl with
  | nil => intro _ st hst; cases hst
  | cons s2 rest ih =>
    intro hnd st hst
    rw [List.map_cons, List.nodup_cons] at hnd
    rcases List.mem_cons.mp hst with h1 | h1
    · subst h1
      simp [assocGet]
    · have hne : s2.stackName ≠ st.stackName := by
        intro hcontra
        exact hnd.1 (hcontra ▸ List.mem_map_of_mem (·.stackName) h1)
      simp only [List.map_cons, assocGet, if_neg hne]
      exact ih hnd.2 st h1

/-- C6: for stacks with distinct names, `syncAllStackSecrets` returns one
entry per stack; each stack's entry is a function of that stack alone
(`fleetStackResult`), so a throwing stack is recorded as a `success=false`
result carrying the thrown message while every other stack's entry is
exactly what it would be with the failing stack absent. -/
theorem claim_C6_fleet_isolation (sl : List FleetStack)
    (hnd : (sl.map (·.stackName)).Nodup) :
    (syncAllStackSecrets sl).length = sl.length ∧
    (∀ st ∈ sl, assocGet (syncAllStackSecrets sl) st.stackName =
      some (fleetStackResult st)) ∧
    (∀ (st : FleetStack) (dir e : String), st.dirResult = .ok (some dir) →
      st.syncOutcome = .error e →
      fleetStackResult st = ⟨false, 0, [e], false, false, []⟩) ∧
    (∀ bad : String, ∀ st ∈ sl, st.stackName ≠ bad →
      assocGet (syncAllStackSecrets (sl.filter (fun s2 => s2.stackName ≠ bad)))
          st.stackName =
        assocGet (syncAllStackSecrets sl) st.stackName) := by
  have heq : syncAllStackSecrets sl =
      sl.map (fun st => (st.stackName, fleetStackResult st)) := by
    rw [syncAllStackSecrets, fleet_fold_eq sl [] (by simp) hnd]
    simp
  refine ⟨?_, ?_, ?_, ?_⟩
  · rw [heq, List.length_map]
  · intro st hst
    rw [heq]
    exact assocGet_fleet_map sl hnd st hst
  · intro st dir e hdir hsync
    unfold fleetStackResult
    rw [hdir, hsync]
  · intro bad st hst hne
    have hsub : List.Sublist ((sl.filter (fun s2 => s2.stackName ≠ bad)).map (·.stackName))
        (sl.map (·.stackName)) := (List.filter_sublist sl).map _
    have hnd2 : ((sl.filter (fun s2 => s2.stackName ≠ bad)).map (·.stackName)).Nodup :=
      hnd.sublist hsub
    have hmem : st ∈ sl.filter (fun s2 => s2.stackName ≠ bad) :=
      List.mem_filter.mpr ⟨hst, by simp [hne]⟩
    have heq2 : syncAllStackSecrets (sl.filter (fun s2 => s2.stackName ≠ bad)) =
        (sl.filter (fun s2 => s2.stackName ≠ bad)).map
          (fun st => (st.stackName, fleetStackResult st)) := by
      rw [syncAllStackSecrets,
        fleet_fold_eq (sl.filter (fun s2 => s2.stackName ≠ bad)) [] (by simp) hnd2]
      simp
    rw [heq, heq2, assocGet_fleet_map sl hnd st hst,
      assocGet_fleet_map (sl.filter (fun s2 => s2.stackName ≠ bad)) hnd2 st hmem]

/-- C6 (witness): a two-stack fleet where stack `b`'s delegated sync throws
`boom`: the map has two entries, stack `a` keeps its own successful result,
and stack `b` is recorded as a failure carrying the message. -/
theorem claim_C6_fleet_isolation_witness :
    (syncAllStackSecrets
      [⟨"a", .ok (some "dirA"), .ok ⟨true, 1, [], false, false, []⟩⟩,
       ⟨"b", .ok (some "dirB"), .error "boom"⟩]).length = 2 ∧
    assocGet (syncAllStackSecrets
      [⟨"a", .ok (some "dirA"), .ok ⟨true, 1, [], false, false, []⟩⟩,
       ⟨"b", .ok (some "dirB"), .error "boom"⟩]) "a" =
      some (fleetStackResult ⟨"a", .ok (some "dirA"), .ok ⟨true, 1, [], false, false, []⟩⟩) ∧
    fleetStackResult ⟨"b", .ok (some "dirB"), .error "boom"⟩ =
      ⟨false, 0, ["boom"], false, false, []⟩ ∧
    assocGet (syncAllStackSecrets
      ([⟨"a", .ok (some "dirA"), .ok ⟨true, 1, [], false, false, []⟩⟩,
        ⟨"b", .ok (some "dirB"), .error "boom"⟩].filter
          (fun s2 => s2.stackName ≠ "b"))) "a" =
      assocGet (syncAllStackSecrets
        [⟨"a", .ok (some "dirA"), .ok ⟨true, 1, [], false, false, []⟩⟩,
         ⟨"b", .ok (some "dirB"), .error "boom"⟩]) "a" := by
  obtain ⟨h1, h2, h3, h4⟩ := claim_C6_fleet_isolation
    [⟨"a", .ok (some "dirA"), .ok ⟨true, 1, [], false, false, []⟩⟩,
     ⟨"b", .ok (some "dirB"), .error "boom"⟩] (by simp)
  refine ⟨h1, ?_, h3 ⟨"b", .ok (some "dirB"), .error "boom"⟩ "dirB" "boom" rfl rfl, ?_⟩
  · exact h2 ⟨"a", .ok (some "dirA"), .ok ⟨true, 1, [], false, false, []⟩⟩
      (List.mem_cons_self _ _)
  · exact h4 "b" ⟨"a", .ok (some "dirA"), .ok ⟨true, 1, [], false, false, []⟩⟩
      (List.mem_cons_self _ _) (by simp)
